import Mathlib

/-!
Verification of `src/utils/messageUtils.ts` (better_chatgpt).

The file is shallow-embedded below. The external BPE encoder
(`@dqbd/tiktoken`) is out of scope for this repository: it is modelled as
an abstract parameter `enc : String → Nat`, standing for
`(s => encoder.encode(s, 'all').length)`. Everything else (the prompt
serializer, the normalizer, the budget-constrained selector, the usage
accumulator) is translated directly from the TypeScript source.

JavaScript behaviour notes reflected in the embedding:
  * `limitMessageTokens` on an empty history evaluates
    `countTokens([messages[0]], model)` with `messages[0] === undefined`
    in its final `else if` branch; destructuring `undefined` inside
    `getChatGPTEncoding` throws a `TypeError`.  The embedding therefore
    returns `Option`, with `none` standing for the thrown exception.
  * `arr.splice(-3, 0, x)` inserts `x` at index `max(arr.length - 3, 0)`;
    with `Nat` subtraction `arr.length - 3` clamps at `0` by itself.
-/

inductive Role where
| system
| user
| assistant
deriving DecidableEq, Repr

structure Message where
  role : Role
  content : String
deriving DecidableEq, Repr

/-- The character class of the regex
`/[Ａ-Ｚａ-ｚ０-９（）［］｛｝＜＞＆＃＠＊＋－＝～！％＇＂，．／：；？＼＾＿｀｜￣]/g`
in `toHalfWidth`: three full-width ranges plus the listed full-width
punctuation characters. -/
def fullWidthSymbolsRegex (c : Char) : Bool :=
  ('Ａ' ≤ c && c ≤ 'Ｚ') ||
  ('ａ' ≤ c && c ≤ 'ｚ') ||
  ('０' ≤ c && c ≤ '９') ||
  ['（', '）', '［', '］', '｛', '｝', '＜', '＞', '＆', '＃', '＠', '＊',
   '＋', '－', '＝', '～', '！', '％', '＇', '＂', '，', '．', '／', '：',
   '；', '？', '＼', '＾', '＿', '｀', '｜', '￣'].contains c

/-- The `halfWidthSymbolsMapping` object literal of `toHalfWidth`,
as an association list in source order. -/
def halfWidthSymbolsMapping : List (Char × Char) :=
  [('Ａ', 'A'), ('Ｂ', 'B'), ('Ｃ', 'C'), ('Ｄ', 'D'), ('Ｅ', 'E'),
   ('Ｆ', 'F'), ('Ｇ', 'G'), ('Ｈ', 'H'), ('Ｉ', 'I'), ('Ｊ', 'J'),
   ('Ｋ', 'K'), ('Ｌ', 'L'), ('Ｍ', 'M'), ('Ｎ', 'N'), ('Ｏ', 'O'),
   ('Ｐ', 'P'), ('Ｑ', 'Q'), ('Ｒ', 'R'), ('Ｓ', 'S'), ('Ｔ', 'T'),
   ('Ｕ', 'U'), ('Ｖ', 'V'), ('Ｗ', 'W'), ('Ｘ', 'X'), ('Ｙ', 'Y'),
   ('Ｚ', 'Z'), ('ａ', 'a'), ('ｂ', 'b'), ('ｃ', 'c'), ('ｄ', 'd'),
   ('ｅ', 'e'), ('ｆ', 'f'), ('ｇ', 'g'), ('ｈ', 'h'), ('ｉ', 'i'),
   ('ｊ', 'j'), ('ｋ', 'k'), ('ｌ', 'l'), ('ｍ', 'm'), ('ｎ', 'n'),
   ('ｏ', 'o'), ('ｐ', 'p'), ('ｑ', 'q'), ('ｒ', 'r'), ('ｓ', 's'),
   ('ｔ', 't'), ('ｕ', 'u'), ('ｖ', 'v'), ('ｗ', 'w'), ('ｘ', 'x'),
   ('ｙ', 'y'), ('ｚ', 'z'), ('０', '0'), ('１', '1'), ('２', '2'),
   ('３', '3'), ('４', '4'), ('５', '5'), ('６', '6'), ('７', '7'),
   ('８', '8'), ('９', '9'), ('（', '('), ('）', ')'), ('［', '['),
   ('］', ']'), ('｛', '\x7b'), ('｝', '\x7d'), ('＜', '<'), ('＞', '>'),
   ('＆', '&'), ('＃', '#'), ('＠', '@'), ('＊', '*'), ('＋', '+'),
   ('－', '-'), ('＝', '='), ('～', '~'), ('！', '!'), ('％', '%'),
   ('＇', '\x27'), ('＂', '\x22'), ('，', ','), ('．', '.'), ('／', '/'),
   ('：', ':'), ('；', ';'), ('？', '?'), ('＼', '\x5c'), ('＾', '^'),
   ('＿', '_'), ('｀', '\x60'), ('｜', '|'), ('￣', '~')]

/-- JavaScript object property lookup on the mapping. -/
def mappingLookup : List (Char × Char) → Char → Option Char
  | [], _ => none
  | (k, v) :: rest, c => if c = k then some v else mappingLookup rest c

/-- Effect of `text.replace(fullWidthSymbolsRegex, m =>
halfWidthSymbolsMapping[m] || m)` on one character: since the regex
class consists of single characters, the replace is a per-character
transform. -/
def halfChar (c : Char) : Char :=
  if fullWidthSymbolsRegex c then (mappingLookup halfWidthSymbolsMapping c).getD c
  else c

/-- Source `toHalfWidth`: the regex-based full-width to
half-width replacement applied over the string. -/
def toHalfWidth (text : String) : String :=
  ⟨text.data.map halfChar⟩

/-- The `halfWidthMap` constant of the source.  NOTE: this map is
declared in the source but never used by any function there. -/
def halfWidthMap : List (String × String) :=
  [("“", "\x22"), ("”", "\x22"), ("‘", "\x27"), ("’", "\x27")]

def roleString : Role → String
  | Role.system => "system"
  | Role.user => "user"
  | Role.assistant => "assistant"

/-- JavaScript `Array.prototype.join(sep)`. -/
def joinSep (sep : String) : List String → String
  | [] => ""
  | [s] => s
  | s :: t :: rest => s ++ sep ++ joinSep sep (t :: rest)

def isGpt3 (model : String) : Bool := model = "gpt-3.5-turbo"

def msgSepOf (model : String) : String := if isGpt3 model then "\n" else ""

def roleSepOf (model : String) : String :=
  if isGpt3 model then "\n" else "<|im_sep|>"

/-- The trailing open assistant turn appended by `getChatGPTEncoding`. -/
def assistantTail (model : String) : String :=
  "<|im_start|>assistant" ++ roleSepOf model

/-- One element of the `messages.map(...)` in `getChatGPTEncoding`:
`` `<|im_start|>${role}${roleSep}${toHalfWidth(content)}<|im_end|>` ``. -/
def wrapMessage (model : String) (m : Message) : String :=
  "<|im_start|>" ++ roleString m.role ++ roleSepOf model ++
    toHalfWidth m.content ++ "<|im_end|>"

/-- The local `serialized` string built inside `getChatGPTEncoding`:
`[messages.map(wrap).join(msgSep), tail].join(msgSep)`.  The actual
token-id sequence is produced by the external encoder, abstracted as
`enc` elsewhere. -/
def serializedPrompt (messages : List Message) (model : String) : String :=
  joinSep (msgSepOf model)
    [joinSep (msgSepOf model) (messages.map (wrapMessage model)),
     assistantTail model]

/-- Source `countTokens`; `enc s` stands for
`encoder.encode(s, 'all').length`. -/
def countTokens (enc : String → Nat) (messages : List Message)
    (model : String) : Nat :=
  if messages.length = 0 then 0 else enc (serializedPrompt messages model)

/-- The reverse `for` loop of `limitMessageTokens`
(`for (let i = messages.length - 1; i >= 1; i--)`), acting on the
non-first messages listed in reverse chronological order.  Returns the
accepted messages in chronological order together with the final running
`tokenCount`; the `break` is the first branch. -/
def scanRev (enc : String → Nat) (model : String) (limit : Nat) :
    List Message → Nat → List Message × Nat
  | [], tokenCount => ([], tokenCount)
  | m :: rl, tokenCount =>
    let count := countTokens enc [m] model
    if count + tokenCount > limit then ([], tokenCount)
    else
      let p := scanRev enc model limit rl (tokenCount + count)
      (p.1 ++ [m], p.2)

/-- JavaScript `limitedMessages.splice(-3, 0, x)`: insert `x` at index
`max(length - 3, 0)` (Nat subtraction clamps). -/
def spliceNeg3 (l : List Message) (x : Message) : List Message :=
  l.take (l.length - 3) ++ x :: l.drop (l.length - 3)

/-- The final `forEach` of `limitMessageTokens`: replace the content by
its half-width form. -/
def normMsg (m : Message) : Message :=
  { m with content := toHalfWidth m.content }

/-- Body of `limitMessageTokens` for a non-empty history `m0 :: rest`,
before the final half-width pass: the system-message check, the reverse
scan and the processing of the first message. -/
def selectorCore (enc : String → Nat) (m0 : Message) (rest : List Message)
    (limit : Nat) (model : String) : List Message :=
  let systemTokenCount := countTokens enc [m0] model
  let retainSystemMessage := m0.role = Role.system ∧ systemTokenCount < limit
  let tc0 := if retainSystemMessage then systemTokenCount else 0
  let scanned := scanRev enc model limit rest.reverse tc0
  if retainSystemMessage then spliceNeg3 scanned.1 m0
  else if m0.role ≠ Role.system then
    if countTokens enc [m0] model + scanned.2 < limit then m0 :: scanned.1
    else scanned.1
  else scanned.1

/-- Source `limitMessageTokens`.  `none` models the
`TypeError` thrown on an empty history (see the file comment). -/
def limitMessageTokens (enc : String → Nat) (messages : List Message)
    (limit : Nat := 4096) (model : String := "gpt-3.5-turbo") :
    Option (List Message) :=
  match messages with
  | [] => none
  | m0 :: rest => some ((selectorCore enc m0 rest limit model).map normMsg)

structure UsageEntry where
  promptTokens : Nat
  completionTokens : Nat
deriving DecidableEq, Repr

/-- Type `TotalTokenUsed`: the per-model usage store, keyed by model name. -/
abbrev TotalTokenUsed : Type := String → Option UsageEntry

/-- Source `updateTotalTokenUsed`, in state-passing form: the
store read through `useStore.getState()` is the explicit argument and
the value passed to `setTotalTokenUsed` is the result. -/
def updateTotalTokenUsed (enc : String → Nat) (model : String)
    (promptMessages : List Message) (completionMessage : Message)
    (st : TotalTokenUsed) : TotalTokenUsed :=
  let newPromptTokens := countTokens enc promptMessages model
  let newCompletionTokens := countTokens enc [completionMessage] model
  let prev := (st model).getD ⟨0, 0⟩
  fun k =>
    if k = model then
      some ⟨prev.promptTokens + newPromptTokens,
            prev.completionTokens + newCompletionTokens⟩
    else st k

/-- Sum of the individual (singleton) token counts of a message list;
this is the quantity the selector's `tokenCount` accumulates. -/
def singlesSum (enc : String → Nat) (model : String)
    (l : List Message) : Nat :=
  (l.map (fun m => countTokens enc [m] model)).sum

/-- A concrete encoder used for witnesses: token count = character
count of the serialized string. -/
def lengthEnc (s : String) : Nat := s.length

/-! ## Lemmas about the normalizer -/

lemma mappingLookup_mem (l : List (Char × Char)) (c d : Char)
    (h : mappingLookup l c = some d) : (c, d) ∈ l := by
  induction l with
  | nil => simp [mappingLookup] at h
  | cons p rest ih =>
    obtain ⟨k, v⟩ := p
    simp only [mappingLookup] at h
    split at h
    · rename_i hc
      subst hc
      injection h with h
      subst h
      exact List.mem_cons_self _ _
    · exact List.mem_cons_of_mem _ (ih h)

lemma mapped_not_fullWidth :
    ∀ p ∈ halfWidthSymbolsMapping, fullWidthSymbolsRegex p.2 = false := by
  decide

lemma halfChar_of_not_fullWidth (c : Char)
    (h : fullWidthSymbolsRegex c = false) : halfChar c = c := by
  simp [halfChar, h]

lemma halfChar_idem (c : Char) : halfChar (halfChar c) = halfChar c := by
  by_cases h : fullWidthSymbolsRegex c
  · cases hl : mappingLookup halfWidthSymbolsMapping c with
    | none =>
      have hc : halfChar c = c := by simp [halfChar, h, hl]
      rw [hc, hc]
    | some d =>
      have hc : halfChar c = d := by simp [halfChar, h, hl]
      have hd : fullWidthSymbolsRegex d = false :=
        mapped_not_fullWidth (c, d) (mappingLookup_mem _ _ _ hl)
      rw [hc, halfChar_of_not_fullWidth d hd]
  · rw [halfChar_of_not_fullWidth c (by simpa using h),
        halfChar_of_not_fullWidth c (by simpa using h)]

lemma toHalfWidth_idem_aux (text : String) :
    toHalfWidth (toHalfWidth text) = toHalfWidth text := by
  show (⟨((⟨text.data.map halfChar⟩ : String).data.map halfChar)⟩ : String) =
    (⟨text.data.map halfChar⟩ : String)
  simp only [List.map_map]
  exact congrArg String.mk
    (List.map_congr_left (fun a _ => halfChar_idem a))

/-- Claim C8: normalization is idempotent: for every text,
`toHalfWidth (toHalfWidth text) = toHalfWidth text`. -/
theorem toHalfWidth_idempotent (text : String) :
    toHalfWidth (toHalfWidth text) = toHalfWidth text :=
  toHalfWidth_idem_aux text

/-- Claim C10: normalization preserves the length of the string: every
replaced code point is substituted by exactly one character and all
other characters pass through unchanged. -/
theorem toHalfWidth_length (text : String) :
    (toHalfWidth text).length = text.length := by
  show (text.data.map halfChar).length = text.data.length
  simp

/-- Claim C5 (code bug): `toHalfWidth` leaves the four curly-quote
characters unchanged: the `halfWidthMap` table that maps them to their
straight-quote equivalents is declared in the source but never applied,
so `“test”` does not normalize to `"test"`. -/
theorem curlyQuotes_unchanged :
    toHalfWidth "“test”" = "“test”" ∧
      toHalfWidth "“test”" ≠ "\x22test\x22" ∧
      toHalfWidth "‘’" = "‘’" := by
  refine ⟨by decide, by decide, by decide⟩

/-! ## Lemmas about the serializer -/

lemma joinSep_cons (sep s : String) (l : List String) (h : l ≠ []) :
    joinSep sep (s :: l) = s ++ sep ++ joinSep sep l := by
  cases l with
  | nil => exact absurd rfl h
  | cons t rest => rfl

lemma serializedPrompt_single (model : String) (m : Message) :
    serializedPrompt [m] model =
      wrapMessage model m ++ msgSepOf model ++ assistantTail model := rfl

lemma serializedPrompt_cons (model : String) (m : Message)
    (rest : List Message) (h : rest ≠ []) :
    serializedPrompt (m :: rest) model =
      (wrapMessage model m ++ msgSepOf model) ++ serializedPrompt rest model := by
  have hmap : rest.map (wrapMessage model) ≠ [] := by
    simpa using h
  unfold serializedPrompt
  rw [List.map_cons, joinSep_cons _ _ _ hmap]
  show (wrapMessage model m ++ msgSepOf model ++
      joinSep (msgSepOf model) (rest.map (wrapMessage model))) ++
      msgSepOf model ++ assistantTail model =
    (wrapMessage model m ++ msgSepOf model) ++
      ((joinSep (msgSepOf model) (rest.map (wrapMessage model)) ++
        msgSepOf model) ++ assistantTail model)
  simp [String.append_assoc]

/-- Claim C6 (counterexample): under dialect A (`gpt-3.5-turbo`) the
serialized prompt still wraps each message with `<|im_start|>` and
`<|im_end|>`; the serialized form of a single user message begins with
the `<|im_start|>` marker. -/
theorem dialectA_markers_cex :
    serializedPrompt [⟨Role.user, "hi"⟩] "gpt-3.5-turbo" =
        "<|im_start|>user\nhi<|im_end|>\n<|im_start|>assistant\n" ∧
      List.IsPrefix "<|im_start|>".data
        (serializedPrompt [⟨Role.user, "hi"⟩] "gpt-3.5-turbo").data ∧
      List.IsInfix "<|im_end|>".data
        (serializedPrompt [⟨Role.user, "hi"⟩] "gpt-3.5-turbo").data := by
  refine ⟨by decide, by decide, by decide⟩

/-- Claim C6 (amended): under dialect A (`gpt-3.5-turbo`) the message
separator and the role/content separator are both a newline, but each
message is still wrapped with the explicit `<|im_start|>`/`<|im_end|>`
markers; the trailing open assistant turn is `<|im_start|>assistant`
followed by the newline separator. -/
theorem dialectA_format (messages : List Message) :
    serializedPrompt messages "gpt-3.5-turbo" =
      joinSep "\n" (messages.map (fun m =>
          "<|im_start|>" ++ roleString m.role ++ "\n" ++
            toHalfWidth m.content ++ "<|im_end|>")) ++
        "\n" ++ ("<|im_start|>assistant" ++ "\n") := by
  show joinSep (msgSepOf "gpt-3.5-turbo")
      [joinSep (msgSepOf "gpt-3.5-turbo")
        (messages.map (wrapMessage "gpt-3.5-turbo")),
       assistantTail "gpt-3.5-turbo"] = _
  have hsep : msgSepOf "gpt-3.5-turbo" = "\n" := rfl
  have hrole : roleSepOf "gpt-3.5-turbo" = "\n" := rfl
  have hwrap : wrapMessage "gpt-3.5-turbo" = fun m =>
      "<|im_start|>" ++ roleString m.role ++ "\n" ++
        toHalfWidth m.content ++ "<|im_end|>" := by
    funext m
    simp [wrapMessage, hrole]
  rw [hsep, hwrap]
  rfl

/-! ## Lemmas about the scan and the selector -/

lemma scanRev_break (enc : String → Nat) (model : String) (limit : Nat)
    (m : Message) (rl : List Message) (tc : Nat)
    (h : countTokens enc [m] model + tc > limit) :
    scanRev enc model limit (m :: rl) tc = ([], tc) := by
  simp only [scanRev]
  rw [if_pos h]

lemma scanRev_accept (enc : String → Nat) (model : String) (limit : Nat)
    (m : Message) (rl : List Message) (tc : Nat)
    (h : countTokens enc [m] model + tc ≤ limit) :
    scanRev enc model limit (m :: rl) tc =
      ((scanRev enc model limit rl (tc + countTokens enc [m] model)).1 ++ [m],
       (scanRev enc model limit rl (tc + countTokens enc [m] model)).2) := by
  simp only [scanRev]
  rw [if_neg (by omega)]

lemma singlesSum_nil (enc : String → Nat) (model : String) :
    singlesSum enc model [] = 0 := rfl

lemma singlesSum_cons (enc : String → Nat) (model : String) (m : Message)
    (l : List Message) :
    singlesSum enc model (m :: l) =
      countTokens enc [m] model + singlesSum enc model l := by
  simp [singlesSum]

lemma singlesSum_append (enc : String → Nat) (model : String)
    (l1 l2 : List Message) :
    singlesSum enc model (l1 ++ l2) =
      singlesSum enc model l1 + singlesSum enc model l2 := by
  simp [singlesSum]

lemma scanRev_sum (enc : String → Nat) (model : String) (limit : Nat) :
    ∀ (rl : List Message) (tc : Nat),
      (scanRev enc model limit rl tc).2 =
        tc + singlesSum enc model (scanRev enc model limit rl tc).1 := by
  intro rl
  induction rl with
  | nil => intro tc; simp [scanRev, singlesSum]
  | cons m rl ih =>
    intro tc
    by_cases h : countTokens enc [m] model + tc > limit
    · rw [scanRev_break enc model limit m rl tc h]
      simp [singlesSum]
    · rw [scanRev_accept enc model limit m rl tc (by omega)]
      have := ih (tc + countTokens enc [m] model)
      rw [singlesSum_append, singlesSum_cons, singlesSum_nil]
      omega

lemma scanRev_le (enc : String → Nat) (model : String) (limit : Nat) :
    ∀ (rl : List Message) (tc : Nat), tc ≤ limit →
      (scanRev enc model limit rl tc).2 ≤ limit := by
  intro rl
  induction rl with
  | nil => intro tc h; simpa [scanRev] using h
  | cons m rl ih =>
    intro tc h
    by_cases hb : countTokens enc [m] model + tc > limit
    · rw [scanRev_break enc model limit m rl tc hb]
      exact h
    · rw [scanRev_accept enc model limit m rl tc (by omega)]
      exact ih (tc + countTokens enc [m] model) (by omega)

lemma scanRev_take (enc : String → Nat) (model : String) (limit : Nat) :
    ∀ (rl : List Message) (tc : Nat),
      ∃ j, j ≤ rl.length ∧
        (scanRev enc model limit rl tc).1 = (rl.take j).reverse := by
  intro rl
  induction rl with
  | nil => intro tc; exact ⟨0, by simp [scanRev]⟩
  | cons m rl ih =>
    intro tc
    by_cases hb : countTokens enc [m] model + tc > limit
    · exact ⟨0, by simp [scanRev_break enc model limit m rl tc hb]⟩
    · obtain ⟨j, hj, heq⟩ := ih (tc + countTokens enc [m] model)
      refine ⟨j + 1, by simpa using hj, ?_⟩
      rw [scanRev_accept enc model limit m rl tc (by omega), heq]
      simp

lemma scanRev_suffix (enc : String → Nat) (model : String) (limit : Nat)
    (l : List Message) (tc : Nat) :
    ∃ k, k ≤ l.length ∧
      (scanRev enc model limit l.reverse tc).1 = l.drop k := by
  obtain ⟨j, hj, heq⟩ := scanRev_take enc model limit l.reverse tc
  refine ⟨l.length - j, Nat.sub_le _ _, ?_⟩
  rw [heq, List.reverse_take]
  simp

/-! ## Invariance of counting under the final half-width pass -/

lemma wrapMessage_normMsg (model : String) (m : Message) :
    wrapMessage model (normMsg m) = wrapMessage model m := by
  simp [wrapMessage, normMsg, toHalfWidth_idem_aux]

lemma serializedPrompt_map_normMsg (model : String) (l : List Message) :
    serializedPrompt (l.map normMsg) model = serializedPrompt l model := by
  unfold serializedPrompt
  have hmaps : (l.map normMsg).map (wrapMessage model) =
      l.map (wrapMessage model) := by
    rw [List.map_map]
    exact List.map_congr_left (fun a _ => wrapMessage_normMsg model a)
  rw [hmaps]

lemma countTokens_map_normMsg (enc : String → Nat) (model : String)
    (l : List Message) :
    countTokens enc (l.map normMsg) model = countTokens enc l model := by
  simp [countTokens, serializedPrompt_map_normMsg]

lemma countTokens_single_normMsg (enc : String → Nat) (model : String)
    (m : Message) :
    countTokens enc [normMsg m] model = countTokens enc [m] model :=
  countTokens_map_normMsg enc model [m]

/-! ## The joint count is bounded by the sum of the singleton counts -/

lemma countTokens_single (enc : String → Nat) (model : String) (m : Message) :
    countTokens enc [m] model =
      enc ((wrapMessage model m ++ msgSepOf model) ++ assistantTail model) := by
  simp [countTokens, serializedPrompt_single]

lemma countTokens_le_singlesSum (enc : String → Nat) (model : String)
    (henc : ∀ a s : String,
      enc (a ++ s) + enc (assistantTail model) ≤
        enc (a ++ assistantTail model) + enc s) :
    ∀ ms : List Message, countTokens enc ms model ≤ singlesSum enc model ms := by
  intro ms
  induction ms with
  | nil => simp [countTokens, singlesSum]
  | cons m rest ih =>
    cases rest with
    | nil => simp [singlesSum_cons, singlesSum_nil]
    | cons m2 r2 =>
      have hne : (m2 :: r2 : List Message) ≠ [] := by simp
      have hcount : countTokens enc (m :: m2 :: r2) model =
          enc ((wrapMessage model m ++ msgSepOf model) ++
            serializedPrompt (m2 :: r2) model) := by
        simp [countTokens, serializedPrompt_cons model m (m2 :: r2) hne]
      have hrest : countTokens enc (m2 :: r2) model =
          enc (serializedPrompt (m2 :: r2) model) := by
        simp [countTokens]
      have hkey := henc (wrapMessage model m ++ msgSepOf model)
        (serializedPrompt (m2 :: r2) model)
      have hsingle := countTokens_single enc model m
      have hsum := singlesSum_cons enc model m (m2 :: r2)
      omega

/-! ## Claim C1 -/

lemma singlesSum_spliceNeg3 (enc : String → Nat) (model : String)
    (l : List Message) (x : Message) :
    singlesSum enc model (spliceNeg3 l x) =
      countTokens enc [x] model + singlesSum enc model l := by
  have hperm : List.Perm (spliceNeg3 l x) (x :: l) := by
    have h1 : List.Perm (l.take (l.length - 3) ++ x :: l.drop (l.length - 3))
        (x :: (l.take (l.length - 3) ++ l.drop (l.length - 3))) :=
      List.perm_middle
    rw [List.take_append_drop] at h1
    exact h1
  unfold singlesSum
  rw [(hperm.map _).sum_eq]
  simp [singlesSum]

lemma singlesSum_selectorCore_le (enc : String → Nat) (model : String)
    (limit : Nat) (m0 : Message) (rest : List Message) :
    singlesSum enc model (selectorCore enc m0 rest limit model) ≤ limit := by
  unfold selectorCore
  by_cases hretain : m0.role = Role.system ∧ countTokens enc [m0] model < limit
  · simp only [if_pos hretain]
    have hsum := scanRev_sum enc model limit rest.reverse
      (countTokens enc [m0] model)
    have hle := scanRev_le enc model limit rest.reverse
      (countTokens enc [m0] model) (Nat.le_of_lt hretain.2)
    rw [singlesSum_spliceNeg3]
    omega
  · simp only [if_neg hretain]
    have hsum := scanRev_sum enc model limit rest.reverse 0
    have hle := scanRev_le enc model limit rest.reverse 0 (Nat.zero_le _)
    by_cases hsys : m0.role ≠ Role.system
    · simp only [if_pos hsys]
      by_cases hfit : countTokens enc [m0] model +
          (scanRev enc model limit rest.reverse 0).2 < limit
      · rw [if_pos hfit, singlesSum_cons]
        omega
      · rw [if_neg hfit]
        omega
    · simp only [if_neg hsys]
      omega

/-- Claim C1: whenever the selector returns (the history is non-empty),
the token count of its output does not exceed the limit.  The external
encoder `enc` is assumed to satisfy the splice inequality
`enc (a ++ s) + enc tail ≤ enc (a ++ tail) + enc s`, which expresses
that replacing the trailing open assistant turn of a one-message prompt
by further serialized messages cannot cost more tokens than those
messages cost in their own one-message prompts; the bound holds with no
degenerate exception. -/
theorem limitMessageTokens_within_limit (enc : String → Nat)
    (model : String) (limit : Nat) (hlim : 0 < limit)
    (henc : ∀ a s : String,
      enc (a ++ s) + enc (assistantTail model) ≤
        enc (a ++ assistantTail model) + enc s)
    (messages out : List Message)
    (hout : limitMessageTokens enc messages limit model = some out) :
    countTokens enc out model ≤ limit := by
  match messages with
  | [] => simp [limitMessageTokens] at hout
  | m0 :: rest =>
    have hres : out = (selectorCore enc m0 rest limit model).map normMsg := by
      simpa [limitMessageTokens] using hout.symm
    calc countTokens enc out model
        = countTokens enc (selectorCore enc m0 rest limit model) model := by
          rw [hres, countTokens_map_normMsg]
      _ ≤ singlesSum enc model (selectorCore enc m0 rest limit model) :=
          countTokens_le_singlesSum enc model henc _
      _ ≤ limit := singlesSum_selectorCore_le enc model limit m0 rest

/-- The length encoder satisfies the splice inequality assumed of the
external encoder (with equality). -/
lemma lengthEnc_splice (t a s : String) :
    lengthEnc (a ++ s) + lengthEnc t = lengthEnc (a ++ t) + lengthEnc s := by
  simp [lengthEnc, String.length_append]
  omega

/-- Witness for C1 at a concrete input: a single user message under the
length encoder and limit 100. -/
theorem limitMessageTokens_within_limit_witness :
    countTokens lengthEnc [⟨Role.user, "hello"⟩] "gpt-3.5-turbo" ≤ 100 :=
  limitMessageTokens_within_limit lengthEnc "gpt-3.5-turbo" 100
    (by decide)
    (fun a s => Nat.le_of_eq (lengthEnc_splice (assistantTail "gpt-3.5-turbo") a s))
    [⟨Role.user, "hello"⟩] [⟨Role.user, "hello"⟩]
    (by decide)

/-! ## Claim C3 -/

/-- Claim C3 (code bug): on the empty history the selector does not
return the empty list: it reaches the non-system first-message branch
and invokes the token counter on the non-existent first message, which
throws (`none` in this embedding). -/
theorem limitMessageTokens_empty_throws (enc : String → Nat) (limit : Nat)
    (model : String) :
    limitMessageTokens enc [] limit model = none := rfl

/-! ## Claim C2 -/

/-- Claim C2 (counterexample): for `[system S, user U1, assistant A1,
user U2]` under the length encoder with limit 300 (all four messages
accepted), the selector returns `[S, U1, A1, U2]` — the system message
is reinserted at index 0, not at index 1 — so the output is not
`[U1, S, A1, U2]`. -/
theorem fourMessages_system_at_head_cex :
    limitMessageTokens lengthEnc
        [⟨Role.system, "S"⟩, ⟨Role.user, "U1"⟩, ⟨Role.assistant, "A1"⟩,
         ⟨Role.user, "U2"⟩] 300 "gpt-3.5-turbo" =
      some [⟨Role.system, "S"⟩, ⟨Role.user, "U1"⟩, ⟨Role.assistant, "A1"⟩,
         ⟨Role.user, "U2"⟩] ∧
    limitMessageTokens lengthEnc
        [⟨Role.system, "S"⟩, ⟨Role.user, "U1"⟩, ⟨Role.assistant, "A1"⟩,
         ⟨Role.user, "U2"⟩] 300 "gpt-3.5-turbo" ≠
      some [⟨Role.user, "U1"⟩, ⟨Role.system, "S"⟩, ⟨Role.assistant, "A1"⟩,
         ⟨Role.user, "U2"⟩] := by
  refine ⟨by decide, by decide⟩

/-! ### Branch lemmas for the selector -/

lemma limitMessageTokens_cons (enc : String → Nat) (m0 : Message)
    (rest : List Message) (limit : Nat) (model : String) :
    limitMessageTokens enc (m0 :: rest) limit model =
      some ((selectorCore enc m0 rest limit model).map normMsg) := rfl

lemma selectorCore_retained (enc : String → Nat) (model : String)
    (limit : Nat) (m0 : Message) (rest : List Message)
    (h : m0.role = Role.system ∧ countTokens enc [m0] model < limit) :
    selectorCore enc m0 rest limit model =
      spliceNeg3
        (scanRev enc model limit rest.reverse (countTokens enc [m0] model)).1
        m0 := by
  simp only [selectorCore]
  rw [if_pos h, if_pos h]

lemma selectorCore_system_unretained (enc : String → Nat) (model : String)
    (limit : Nat) (m0 : Message) (rest : List Message)
    (h : m0.role = Role.system) (hbig : ¬ countTokens enc [m0] model < limit) :
    selectorCore enc m0 rest limit model =
      (scanRev enc model limit rest.reverse 0).1 := by
  have hretain : ¬ (m0.role = Role.system ∧
      countTokens enc [m0] model < limit) := fun hc => hbig hc.2
  simp only [selectorCore]
  rw [if_neg hretain, if_neg hretain, if_neg (by simpa using h)]

lemma selectorCore_nonsystem_fit (enc : String → Nat) (model : String)
    (limit : Nat) (m0 : Message) (rest : List Message)
    (h : m0.role ≠ Role.system)
    (hfit : countTokens enc [m0] model +
        (scanRev enc model limit rest.reverse 0).2 < limit) :
    selectorCore enc m0 rest limit model =
      m0 :: (scanRev enc model limit rest.reverse 0).1 := by
  have hretain : ¬ (m0.role = Role.system ∧
      countTokens enc [m0] model < limit) := fun hc => h hc.1
  simp only [selectorCore]
  rw [if_neg hretain, if_neg hretain, if_pos h, if_pos hfit]

lemma selectorCore_nonsystem_nofit (enc : String → Nat) (model : String)
    (limit : Nat) (m0 : Message) (rest : List Message)
    (h : m0.role ≠ Role.system)
    (hnofit : ¬ countTokens enc [m0] model +
        (scanRev enc model limit rest.reverse 0).2 < limit) :
    selectorCore enc m0 rest limit model =
      (scanRev enc model limit rest.reverse 0).1 := by
  have hretain : ¬ (m0.role = Role.system ∧
      countTokens enc [m0] model < limit) := fun hc => h hc.1
  simp only [selectorCore]
  rw [if_neg hretain, if_neg hretain, if_pos h, if_neg hnofit]

/-- Claim C2 (amended): for `[system, user, assistant, user]` and any
limit large enough that the system message passes its strict check and
the reverse scan accepts all three non-system messages, the selector
returns all four messages in the original order: the reverse scan
accepts only the three non-system messages, so the `splice(-3, 0, ...)`
reinsertion places the retained system message at index 0 (not 1). -/
theorem fourMessages_system_at_head (enc : String → Nat) (model : String)
    (limit : Nat) (cs c1 c2 c3 : String)
    (hsys : countTokens enc [⟨Role.system, cs⟩] model < limit)
    (h3 : countTokens enc [⟨Role.user, c3⟩] model +
        countTokens enc [⟨Role.system, cs⟩] model ≤ limit)
    (h2 : countTokens enc [⟨Role.assistant, c2⟩] model +
        (countTokens enc [⟨Role.system, cs⟩] model +
          countTokens enc [⟨Role.user, c3⟩] model) ≤ limit)
    (h1 : countTokens enc [⟨Role.user, c1⟩] model +
        (countTokens enc [⟨Role.system, cs⟩] model +
          countTokens enc [⟨Role.user, c3⟩] model +
          countTokens enc [⟨Role.assistant, c2⟩] model) ≤ limit) :
    limitMessageTokens enc
        [⟨Role.system, cs⟩, ⟨Role.user, c1⟩, ⟨Role.assistant, c2⟩,
         ⟨Role.user, c3⟩] limit model =
      some ([⟨Role.system, cs⟩, ⟨Role.user, c1⟩, ⟨Role.assistant, c2⟩,
         ⟨Role.user, c3⟩].map normMsg) := by
  have hrev : ([⟨Role.user, c1⟩, ⟨Role.assistant, c2⟩, ⟨Role.user, c3⟩] :
      List Message).reverse =
      [⟨Role.user, c3⟩, ⟨Role.assistant, c2⟩, ⟨Role.user, c1⟩] := rfl
  have hscan : scanRev enc model limit
      [⟨Role.user, c3⟩, ⟨Role.assistant, c2⟩, ⟨Role.user, c1⟩]
      (countTokens enc [⟨Role.system, cs⟩] model) =
      ([⟨Role.user, c1⟩, ⟨Role.assistant, c2⟩, ⟨Role.user, c3⟩],
       countTokens enc [⟨Role.system, cs⟩] model +
         countTokens enc [⟨Role.user, c3⟩] model +
         countTokens enc [⟨Role.assistant, c2⟩] model +
         countTokens enc [⟨Role.user, c1⟩] model) := by
    rw [scanRev_accept enc model limit _ _ _ (by omega)]
    rw [scanRev_accept enc model limit _ _ _ (by omega)]
    rw [scanRev_accept enc model limit _ _ _ (by omega)]
    simp only [scanRev]
    simp
  rw [limitMessageTokens_cons,
    selectorCore_retained enc model limit _ _ ⟨rfl, hsys⟩, hrev, hscan]
  simp [spliceNeg3]

/-- Witness for the amended C2 at a concrete input. -/
theorem fourMessages_system_at_head_witness :
    limitMessageTokens lengthEnc
        [⟨Role.system, "S"⟩, ⟨Role.user, "U1"⟩, ⟨Role.assistant, "A1"⟩,
         ⟨Role.user, "U2"⟩] 300 "gpt-3.5-turbo" =
      some ([⟨Role.system, "S"⟩, ⟨Role.user, "U1"⟩, ⟨Role.assistant, "A1"⟩,
         ⟨Role.user, "U2"⟩].map normMsg) :=
  fourMessages_system_at_head lengthEnc "gpt-3.5-turbo" 300 "S" "U1" "A1" "U2"
    (by decide) (by decide) (by decide) (by decide)

/-! ## Claim C4 -/

/-- Claim C4 (counterexample): for a system message followed by five
user messages, all accepted under a generous limit, the selector's
output has the system message at index 2 (three slots from the end of
the five accepted messages): the output is neither a contiguous suffix
of the input nor such a suffix prefixed by the input's first message. -/
theorem selector_shape_cex :
    limitMessageTokens lengthEnc
        [⟨Role.system, "S"⟩, ⟨Role.user, "u1"⟩, ⟨Role.user, "u2"⟩,
         ⟨Role.user, "u3"⟩, ⟨Role.user, "u4"⟩, ⟨Role.user, "u5"⟩]
        1000 "gpt-3.5-turbo" =
      some [⟨Role.user, "u1"⟩, ⟨Role.user, "u2"⟩, ⟨Role.system, "S"⟩,
         ⟨Role.user, "u3"⟩, ⟨Role.user, "u4"⟩, ⟨Role.user, "u5"⟩] ∧
    ¬ List.IsSuffix
        ([⟨Role.user, "u1"⟩, ⟨Role.user, "u2"⟩, ⟨Role.system, "S"⟩,
          ⟨Role.user, "u3"⟩, ⟨Role.user, "u4"⟩, ⟨Role.user, "u5"⟩] :
          List Message)
        ([⟨Role.system, "S"⟩, ⟨Role.user, "u1"⟩, ⟨Role.user, "u2"⟩,
          ⟨Role.user, "u3"⟩, ⟨Role.user, "u4"⟩, ⟨Role.user, "u5"⟩] :
          List Message) ∧
    ([⟨Role.user, "u1"⟩, ⟨Role.user, "u2"⟩, ⟨Role.system, "S"⟩,
         ⟨Role.user, "u3"⟩, ⟨Role.user, "u4"⟩, ⟨Role.user, "u5"⟩] :
        List Message).head? ≠ some ⟨Role.system, "S"⟩ := by
  refine ⟨by decide, by decide, by decide⟩

/-- Claim C4 (amended): the selector's output is the normalized copy of
a contiguous suffix of the non-first input messages; the input's first
message, when included, is prepended at the true head only when its
role is not `system`, while a retained system first message is inserted
three slots from the end of that suffix (clamped to the head), so it
need not come first. -/
theorem selector_shape (enc : String → Nat) (model : String) (limit : Nat)
    (m0 : Message) (rest : List Message) :
    ∃ k, k ≤ rest.length ∧
      ((m0.role = Role.system ∧
          limitMessageTokens enc (m0 :: rest) limit model =
            some ((spliceNeg3 (rest.drop k) m0).map normMsg)) ∨
       (m0.role ≠ Role.system ∧
          limitMessageTokens enc (m0 :: rest) limit model =
            some ((m0 :: rest.drop k).map normMsg)) ∨
       limitMessageTokens enc (m0 :: rest) limit model =
          some ((rest.drop k).map normMsg)) := by
  by_cases hretain : m0.role = Role.system ∧ countTokens enc [m0] model < limit
  · obtain ⟨k, hk, hdrop⟩ :=
      scanRev_suffix enc model limit rest (countTokens enc [m0] model)
    refine ⟨k, hk, Or.inl ⟨hretain.1, ?_⟩⟩
    rw [limitMessageTokens_cons,
      selectorCore_retained enc model limit m0 rest hretain, hdrop]
  · by_cases hsys : m0.role = Role.system
    · obtain ⟨k, hk, hdrop⟩ := scanRev_suffix enc model limit rest 0
      refine ⟨k, hk, Or.inr (Or.inr ?_)⟩
      have hbig : ¬ countTokens enc [m0] model < limit :=
        fun hc => hretain ⟨hsys, hc⟩
      rw [limitMessageTokens_cons,
        selectorCore_system_unretained enc model limit m0 rest hsys hbig,
        hdrop]
    · obtain ⟨k, hk, hdrop⟩ := scanRev_suffix enc model limit rest 0
      by_cases hfit : countTokens enc [m0] model +
          (scanRev enc model limit rest.reverse 0).2 < limit
      · refine ⟨k, hk, Or.inr (Or.inl ⟨hsys, ?_⟩)⟩
        rw [limitMessageTokens_cons,
          selectorCore_nonsystem_fit enc model limit m0 rest hsys hfit, hdrop]
      · refine ⟨k, hk, Or.inr (Or.inr ?_)⟩
        rw [limitMessageTokens_cons,
          selectorCore_nonsystem_nofit enc model limit m0 rest hsys hfit,
          hdrop]

/-! ## Claim C7 -/

/-- Claim C7: the budget comparisons are asymmetric.  In the reverse
scan a message is accepted exactly when its count plus the running
total does not exceed the limit (so a message reaching the limit
exactly is accepted), and the scan stops at the first message from the
end whose addition would exceed the limit; by contrast the
leading-system-message check and the optional-first-message check both
require the total to be strictly below the limit. -/
theorem budget_comparisons (enc : String → Nat) (model : String)
    (limit : Nat) :
    (∀ (m : Message) (rl : List Message) (tc : Nat),
        countTokens enc [m] model + tc ≤ limit ↔
          (scanRev enc model limit (m :: rl) tc).1.getLast? = some m) ∧
    (∀ (m : Message) (rl : List Message) (tc : Nat),
        countTokens enc [m] model + tc > limit →
          scanRev enc model limit (m :: rl) tc = ([], tc)) ∧
    (∀ s : Message, s.role = Role.system →
        (limitMessageTokens enc [s] limit model = some [normMsg s] ↔
          countTokens enc [s] model < limit)) ∧
    (∀ u : Message, u.role ≠ Role.system →
        (limitMessageTokens enc [u] limit model = some [normMsg u] ↔
          countTokens enc [u] model < limit)) := by
  have hsc : ∀ tc : Nat,
      scanRev enc model limit (([] : List Message)).reverse tc = ([], tc) :=
    fun tc => rfl
  refine ⟨?_, ?_, ?_, ?_⟩
  · intro m rl tc
    constructor
    · intro h
      rw [scanRev_accept enc model limit m rl tc h]
      simp [List.getLast?_append]
    · intro hlast
      by_contra hnot
      rw [scanRev_break enc model limit m rl tc (by omega)] at hlast
      simp at hlast
  · intro m rl tc h
    exact scanRev_break enc model limit m rl tc h
  · intro s hs
    constructor
    · intro h
      by_contra hbig
      rw [limitMessageTokens_cons,
        selectorCore_system_unretained enc model limit s [] hs hbig,
        hsc 0] at h
      simp at h
    · intro hlt
      rw [limitMessageTokens_cons,
        selectorCore_retained enc model limit s [] ⟨hs, hlt⟩,
        hsc (countTokens enc [s] model)]
      simp [spliceNeg3]
  · intro u hu
    constructor
    · intro h
      by_contra hbig
      have hnofit : ¬ countTokens enc [u] model +
          (scanRev enc model limit (([] : List Message)).reverse 0).2 <
            limit := by
        rw [hsc 0]
        omega
      rw [limitMessageTokens_cons,
        selectorCore_nonsystem_nofit enc model limit u [] hu hnofit,
        hsc 0] at h
      simp at h
    · intro hlt
      have hfit : countTokens enc [u] model +
          (scanRev enc model limit (([] : List Message)).reverse 0).2 <
            limit := by
        rw [hsc 0]
        omega
      rw [limitMessageTokens_cons,
        selectorCore_nonsystem_fit enc model limit u [] hu hfit, hsc 0]
      simp

/-- Witness for C7 at concrete inputs: a message whose count reaches
the limit exactly is accepted by the reverse scan, while the
first-message check rejects a single user message at the same exact
boundary, and accepts it one unit below. -/
theorem budget_comparisons_witness :
    (scanRev lengthEnc "gpt-3.5-turbo" 52
        [⟨Role.user, "hi"⟩] 0).1.getLast? = some ⟨Role.user, "hi"⟩ ∧
    limitMessageTokens lengthEnc [⟨Role.user, "hi"⟩] 52 "gpt-3.5-turbo" ≠
      some [normMsg ⟨Role.user, "hi"⟩] ∧
    limitMessageTokens lengthEnc [⟨Role.user, "hi"⟩] 53 "gpt-3.5-turbo" =
      some [normMsg ⟨Role.user, "hi"⟩] := by
  refine ⟨?_, ?_, ?_⟩
  · exact ((budget_comparisons lengthEnc "gpt-3.5-turbo" 52).1
      ⟨Role.user, "hi"⟩ [] 0).mp (by decide)
  · intro h
    have hlt := ((budget_comparisons lengthEnc "gpt-3.5-turbo" 52).2.2.2
      ⟨Role.user, "hi"⟩ (by decide)).mp h
    exact absurd hlt (by decide)
  · exact ((budget_comparisons lengthEnc "gpt-3.5-turbo" 53).2.2.2
      ⟨Role.user, "hi"⟩ (by decide)).mpr (by decide)

/-! ## Claim C9 -/

/-- Claim C9: `updateTotalTokenUsed` adds the computed prompt and
completion token counts to the given model's existing totals (missing
entries default to 0) and writes back only that model's entry: every
other key is unchanged, and a second identical call doubles both
increments relative to the original store. -/
theorem updateTotalTokenUsed_spec (enc : String → Nat) (model : String)
    (promptMessages : List Message) (completionMessage : Message)
    (st : TotalTokenUsed) :
    updateTotalTokenUsed enc model promptMessages completionMessage st
        model =
      some ⟨((st model).getD ⟨0, 0⟩).promptTokens +
              countTokens enc promptMessages model,
            ((st model).getD ⟨0, 0⟩).completionTokens +
              countTokens enc [completionMessage] model⟩ ∧
    (∀ k, k ≠ model →
        updateTotalTokenUsed enc model promptMessages completionMessage st
          k = st k) ∧
    updateTotalTokenUsed enc model promptMessages completionMessage
        (updateTotalTokenUsed enc model promptMessages completionMessage st)
        model =
      some ⟨((st model).getD ⟨0, 0⟩).promptTokens +
              2 * countTokens enc promptMessages model,
            ((st model).getD ⟨0, 0⟩).completionTokens +
              2 * countTokens enc [completionMessage] model⟩ := by
  refine ⟨?_, ?_, ?_⟩
  · simp [updateTotalTokenUsed]
  · intro k hk
    simp [updateTotalTokenUsed, hk]
  · simp [updateTotalTokenUsed]
    constructor <;> omega

/-- Witness for C9 at a concrete input: updating the usage for
`gpt-3.5-turbo` leaves the entry of a different key unchanged and
accumulates the counts for the updated key. -/
theorem updateTotalTokenUsed_spec_witness :
    updateTotalTokenUsed lengthEnc "gpt-3.5-turbo" []
        ⟨Role.assistant, "ok"⟩
        (fun k => if k = "gpt-4" then some ⟨5, 7⟩ else none) "gpt-4" =
      some ⟨5, 7⟩ ∧
    updateTotalTokenUsed lengthEnc "gpt-3.5-turbo" []
        ⟨Role.assistant, "ok"⟩
        (fun k => if k = "gpt-4" then some ⟨5, 7⟩ else none)
        "gpt-3.5-turbo" =
      some ⟨0 + 0, 0 + 57⟩ := by
  refine ⟨?_, ?_⟩
  · have h := (updateTotalTokenUsed_spec lengthEnc "gpt-3.5-turbo" []
      ⟨Role.assistant, "ok"⟩
      (fun k => if k = "gpt-4" then some ⟨5, 7⟩ else none)).2.1
      "gpt-4" (by decide)
    simpa using h
  · have h := (updateTotalTokenUsed_spec lengthEnc "gpt-3.5-turbo" []
      ⟨Role.assistant, "ok"⟩
      (fun k => if k = "gpt-4" then some ⟨5, 7⟩ else none)).1
    rw [h]
    have hc : countTokens lengthEnc [(⟨Role.assistant, "ok"⟩ : Message)]
        "gpt-3.5-turbo" = 57 := by decide
    have hp : countTokens lengthEnc ([] : List Message)
        "gpt-3.5-turbo" = 0 := rfl
    simp [hc, hp]
